import Mathlib

/-!
# Verification of the stm32wl-hal ADC driver (`hal/src/adc.rs`)

Shallow embedding of the ADC driver.  Memory-mapped registers are modelled as
an explicit record (`AdcState`); each driver function is translated line by
line from the Rust source.  Unbounded busy-wait loops on a hardware status
flag are modelled by an explicit "hardware completion" step (`hwEnableDone`,
`hwStopDone`, ...) that performs the register change the hardware makes when
the awaited flag becomes observable, so a loop `while !flag {}` is embedded
as that completion step (the loop body is empty; the loop exits exactly when
the hardware has made the flag true).

Register write semantics follow RM0453 and the svd2rust API used by the
driver:
* `reg.write(|w| ...)` writes the whole register, unspecified fields take
  their reset value (0);
* `reg.modify(|r, w| ...)` keeps unspecified fields;
* the ADC_ISR status flags are rc_w1: writing 1 to a flag clears it, writing
  0 leaves it unchanged, so `isr.write(|w| w.x().set_bit())` clears flag `x`;
* the ADC_CR bits ADEN, ADDIS, ADSTART, ADSTP, ADCAL are rs (software can
  only set them, writing 0 has no effect); ADVREGEN is rw.

`num_rational::Ratio` arithmetic is modelled as exact rational arithmetic
(the spec's reading of the dependency); `Ratio::new` with a zero denominator
panics, which is modelled by returning `none`.  The integer operations
written in `adc.rs` itself (`wrapping_sub`, `saturating_add`, `as i16`
casts) are modelled exactly at their machine widths.
-/

namespace StmAdc

/-! ## Machine-integer helpers -/

/-- Modulus of the `u16` type. -/
def U16_MOD : Nat := 65536

/-- `u16::wrapping_sub`: subtraction modulo 2^16. -/
def wrappingSub16 (a b : Nat) : Nat :=
  (a % U16_MOD + U16_MOD - b % U16_MOD) % U16_MOD

/-- `u16::saturating_add`: addition clamped at `u16::MAX`. -/
def saturatingAdd16 (a b : Nat) : Nat :=
  min (a % U16_MOD + b % U16_MOD) 65535

/-- Rust `as i16` reinterpretation of a `u16` value. -/
def toI16 (n : Nat) : Int :=
  if n % U16_MOD < 32768 then (n % U16_MOD : Nat) else (n % U16_MOD : Nat) - (U16_MOD : Int)

/-! ## Constants from `adc.rs` -/

/-- `const TS_CAL1_TEMP: i16 = 30` -/
def TS_CAL1_TEMP : Int := 30

/-- `const TS_CAL2_TEMP: i16 = 130` -/
def TS_CAL2_TEMP : Int := 130

/-- `const TS_CAL_TEMP_DELTA: i16 = TS_CAL2_TEMP - TS_CAL1_TEMP` -/
def TS_CAL_TEMP_DELTA : Int := TS_CAL2_TEMP - TS_CAL1_TEMP

/-- `const CH_MASK: u32 = 0x13FFF` — the source comment reads "Channels 0-17,
but without 15 and 16 because they are reserved", although the numeric value
0x13FFF is the set {0..13, 16}, not {0..14, 17} (= 0x27FFF). -/
def CH_MASK : Nat := 0x13FFF

/-- `T_ADCVREG_SETUP_MICROS`: `Duration::from_micros(20).as_micros() as u8`. -/
def T_ADCVREG_SETUP_MICROS : Nat := 20

/-- `Ch::Vts = 12` (junction temperature sensor channel number). -/
def chVts : Nat := 12

/-- `Ch::Vbat = 14` (battery voltage divider channel number). -/
def chVbat : Nat := 14

/-- `Ch::mask(self) = 1 << (self as u8)` -/
def chMask (ch : Nat) : Nat := 1 <<< ch

/-! ## The register file -/

/-- ADC_CR control register (the bits the driver uses). -/
structure Cr where
  aden : Bool := false
  addis : Bool := false
  adstart : Bool := false
  adstp : Bool := false
  advregen : Bool := false
  adcal : Bool := false
deriving DecidableEq, Repr

/-- ADC_ISR interrupt-and-status register. -/
structure Isr where
  adrdy : Bool := false
  eosmp : Bool := false
  eoc : Bool := false
  eos : Bool := false
  ovr : Bool := false
  awd1 : Bool := false
  awd2 : Bool := false
  awd3 : Bool := false
  eocal : Bool := false
  ccrdy : Bool := false
deriving DecidableEq, Repr

/-- ADC_IER interrupt-enable register. -/
structure Ier where
  adrdyie : Bool := false
  eosmpie : Bool := false
  eocie : Bool := false
  eosie : Bool := false
  ovrie : Bool := false
  awd1ie : Bool := false
  awd2ie : Bool := false
  awd3ie : Bool := false
  eocalie : Bool := false
  ccrdyie : Bool := false
deriving DecidableEq, Repr

/-- ADC_CCR common configuration register (analog source enables). -/
structure Ccr where
  tsen : Bool := false
  vrefen : Bool := false
  vbaten : Bool := false
deriving DecidableEq, Repr

/-- The full driver-visible state: ADC registers, the factory calibration
constants (read-only system memory), and the analog input.  `analog` is the
raw converter code the hardware produces for the currently selected channel
when a conversion completes; `hwCalfact` is the 7-bit factor the hardware
computes during self-calibration. -/
structure AdcState where
  cr : Cr := {}
  isr : Isr := {}
  ier : Ier := {}
  ccr : Ccr := {}
  /-- ADC_CHSELR, CHSEL[18:0] (CHSELRMOD = 0). -/
  chselr : Nat := 0
  /-- ADC_SMPR sample-time register. -/
  smpr : Nat := 0
  /-- ADC_DR data register. -/
  dr : Nat := 0
  /-- ADC_CALFACT, CALFACT[6:0]. -/
  calfact : Nat := 0
  /-- ADC_CFGR1.DMAEN -/
  dmaen : Bool := false
  /-- factory constant at 0x1FFF_75A8 (raw count at 30 °C) -/
  tsCal1 : Nat := 922
  /-- factory constant at 0x1FFF_75C8 (raw count at 130 °C) -/
  tsCal2 : Nat := 1723
  /-- raw converter code for the selected channel -/
  analog : Nat := 0
  /-- factor produced by hardware self-calibration -/
  hwCalfact : Nat := 0
deriving DecidableEq, Repr

/-- `adc.cr.write(|w| ...)`: full-register write.  The rs bits (ADEN, ADDIS,
ADSTART, ADSTP, ADCAL) can only be set by software — writing 0 has no
effect — while ADVREGEN is plain rw (RM0453 18.7.3). -/
def crWrite (s : AdcState) (aden addis adstart adstp advregen adcal : Bool) : AdcState :=
  { s with cr := {
      aden := s.cr.aden || aden,
      addis := s.cr.addis || addis,
      adstart := s.cr.adstart || adstart,
      adstp := s.cr.adstp || adstp,
      advregen := advregen,
      adcal := s.cr.adcal || adcal } }

/-! ## Hardware completion steps (busy-wait loop exits) -/

/-- Hardware completes the enable sequence begun by ADEN = 1: ADRDY is set.
(`while self.adc.isr.read().adrdy().is_not_ready() {}` exits.) -/
def hwEnableDone (s : AdcState) : AdcState :=
  { s with isr.adrdy := true }

/-- Hardware acknowledges the ADSTP stop request: the ongoing conversion is
aborted with its partial result discarded, then ADSTP and ADSTART are
cleared (RM0453 18.3.5).  EOC is not set by an aborted conversion.
(`while self.adc.cr.read().adstp().bit_is_set() {}` exits.) -/
def hwStopDone (s : AdcState) : AdcState :=
  { s with cr.adstp := false, cr.adstart := false }

/-- Hardware completes a pending disable request: ADEN goes to 0 and ADDIS
auto-clears (`while !self.is_disabled() {}` exits). -/
def waitDisabled (s : AdcState) : AdcState :=
  if s.cr.addis then { s with cr.aden := false, cr.addis := false } else s

/-- Hardware latches the new channel configuration: CCRDY is set
(`while self.adc.isr.read().ccrdy().is_not_complete() {}` exits). -/
def hwChCfgDone (s : AdcState) : AdcState :=
  { s with isr.ccrdy := true }

/-- Hardware completes the conversion begun by ADSTART: the raw code is
latched in ADC_DR, EOC is set and ADSTART auto-clears (single conversion
mode). -/
def hwConvDone (s : AdcState) : AdcState :=
  { s with isr.eoc := true, dr := s.analog % U16_MOD, cr.adstart := false }

/-- Hardware completes self-calibration: ADCAL is cleared, the calibration
factor is latched in ADC_CALFACT and EOCAL is set
(`while self.adc.cr.read().adcal().is_calibrating() {}` exits). -/
def hwCalDone (s : AdcState) : AdcState :=
  { s with cr.adcal := false, calfact := s.hwCalfact % 128, isr.eocal := true }

/-! ## Lifecycle controller -/

/-- `Adc::is_enabled`: `self.adc.cr.read().aden().bit_is_set()` -/
def is_enabled (s : AdcState) : Bool := s.cr.aden

/-- `Adc::is_disabled`: ADEN clear and ADDIS clear. -/
def is_disabled (s : AdcState) : Bool := !s.cr.aden && !s.cr.addis

/-- `Adc::start_enable`: if ADEN is clear, clear the ADRDY flag
(`isr.write(adrdy set)` is rc_w1) and request enable; returns whether the
caller should poll for completion. -/
def start_enable (s : AdcState) : AdcState × Bool :=
  if !s.cr.aden then
    let s1 : AdcState := { s with isr.adrdy := false }
    (crWrite s1 true false false false false false, true)
  else
    (s, false)

/-- `Adc::enable`: `start_enable` then busy-poll ADRDY. -/
def enable (s : AdcState) : AdcState :=
  let p := start_enable s
  if p.2 then hwEnableDone p.1 else p.1

/-! ## Channel sequencer -/

/-- `Adc::set_chsel`: `chselr0().write(|w| w.chsel().bits(ch))`.  The PAC
masks the written value to the width of the CHSEL field, bits [18:0]; no
other masking is applied. -/
def set_chsel (s : AdcState) (ch : Nat) : AdcState :=
  { s with chselr := ch % 2 ^ 19 }

/-- `Adc::cfg_ch_seq`: write CHSEL, then busy-wait until CCRDY confirms the
hardware latched the new configuration. -/
def cfg_ch_seq (s : AdcState) (ch : Nat) : AdcState :=
  hwChCfgDone (set_chsel s ch)

/-- `Adc::set_sample_times`: `smpr.write((mask & CH_MASK) << 8 | sel1 << 4 | sel0)`. -/
def set_sample_times (s : AdcState) (mask sel0 sel1 : Nat) : AdcState :=
  { s with smpr := ((mask &&& CH_MASK) <<< 8) ||| ((sel1 % 8) <<< 4) ||| (sel0 % 8) }

/-! ## Conversion engine (blocking) -/

/-- `Adc::data`: busy-poll EOC, read ADC_DR, clear EOC by writing 1 to it
(rc_w1), return the raw sample. -/
def data (s : AdcState) : AdcState × Nat :=
  let s1 := hwConvDone s
  let d := s1.dr
  ({ s1 with isr.eoc := false }, d)

/-! ## Async completion bridge (`mod aio`) -/

/-- The shared mailbox: `ADC_RESULT: AtomicU32` (0 = empty sentinel) and
`ADC_WAKER: AtomicWaker`.  A waker is identified by a token. -/
structure Mailbox where
  result : Nat := 0
  waker : Option Nat := none
deriving DecidableEq, Repr

/-- Outcome of `aio::poll`. -/
inductive PollRes where
  | pending
  | ready (isr : Nat)
deriving DecidableEq, Repr

/-- `aio::poll`: register the current waker (replacing any previous one),
load `ADC_RESULT`; on 0 return `Pending`, otherwise take the waker and
`swap(0)` the result slot, returning `Ready` with the swapped-out value. -/
def poll (w : Nat) (m : Mailbox) : Mailbox × PollRes :=
  let m1 : Mailbox := { m with waker := some w }
  if m1.result = 0 then
    (m1, PollRes.pending)
  else
    let m2 : Mailbox := { m1 with waker := none }
    let isr := m2.result
    ({ m2 with result := 0 }, PollRes.ready isr)

/-- Encoding of the ADC_ISR flags as the status word the interrupt handler
snapshots (`adc.isr.read().bits()`), with the RM0453 bit positions. -/
def isrBits (i : Isr) : Nat :=
  i.adrdy.toNat + 2 * i.eosmp.toNat + 4 * i.eoc.toNat + 8 * i.eos.toNat +
    16 * i.ovr.toNat + 128 * i.awd1.toNat + 256 * i.awd2.toNat +
    512 * i.awd3.toNat + 2048 * i.eocal.toNat + 8192 * i.ccrdy.toNat

/-- The mailbox part of the `ADC` interrupt handler: assert the result slot
is empty (debug-only — returned here as a misuse flag), store the
interrupt-status word (`status` is the `u32` read from ADC_ISR, so it is
below `2^32`, cf. `isrBits_lt`), wake (take) the registered waker.  Returns
the new mailbox, the misuse flag and the woken waker. -/
def irqPost (m : Mailbox) (status : Nat) : Mailbox × Bool × Option Nat :=
  ({ result := status, waker := none }, decide (m.result ≠ 0), m.waker)

/-- The full `aio::irq::ADC` handler: snapshot ADC_ISR into the result slot,
write 1 to every ISR flag (rc_w1 — clears them all), write ADC_IER to all
zeros (masks every source), wake the registered waker. -/
def irqADC (s : AdcState) (m : Mailbox) : AdcState × Mailbox × Bool × Option Nat :=
  let r := irqPost m (isrBits s.isr)
  let s1 : AdcState := { s with isr := {} }
  let s2 : AdcState := { s1 with ier := {} }
  (s2, r)

/-- `Adc::aio_cfg_ch_seq`: write CHSEL, arm the CCRDY interrupt
(`ier.write` — every other enable bit goes to 0), then await the mailbox:
the first poll registers the waker; if the slot is stale-nonempty the future
resolves immediately, otherwise the hardware latches the configuration, the
interrupt fires and the woken second poll resolves. -/
def aio_cfg_ch_seq (s : AdcState) (m : Mailbox) (w : Nat) (ch : Nat) :
    AdcState × Mailbox :=
  let s1 := set_chsel s ch
  let s2 : AdcState := { s1 with ier := { ccrdyie := true } }
  let p := poll w m
  match p.2 with
  | PollRes.ready _ => (s2, p.1)
  | PollRes.pending =>
      let s3 := hwChCfgDone s2
      let r := irqADC s3 p.1
      let q := poll w r.2.1
      (r.1, q.1)

/-- `Adc::aio_data`: arm the EOC interrupt (`ier.write`), await the mailbox,
then read ADC_DR on wake (no separate flag clear — the handler drained the
status bits). -/
def aio_data (s : AdcState) (m : Mailbox) (w : Nat) : AdcState × Mailbox × Nat :=
  let s1 : AdcState := { s with ier := { eocie := true } }
  let p := poll w m
  match p.2 with
  | PollRes.ready _ => (s1, p.1, s1.dr)
  | PollRes.pending =>
      let s2 := hwConvDone s1
      let r := irqADC s2 p.1
      let q := poll w r.2.1
      (r.1, q.1, r.1.dr)

/-! ## Calibration (with an event trace recording operation order) -/

/-- Events recording the order of the register operations, busy-waits and
delays performed by the calibration procedure. -/
inductive Event where
  /-- `cr.modify(adstp stop_conversion)` — conversion stop request -/
  | adstpSet
  /-- busy-wait until ADSTP reads 0 (stop acknowledged) -/
  | waitAdstp
  /-- `cr.modify(addis set)` — disable request -/
  | addisSet
  /-- busy-wait until `is_disabled()` -/
  | waitDisabled
  /-- `cr.write(advregen enabled)` — internal voltage regulator on -/
  | advregenOn
  /-- `cfgr1.write(dmaen clear)` — DMA disabled -/
  | dmaDisable
  /-- `delay.delay_us(n)` through the injected delay capability -/
  | delayUs (n : Nat)
  /-- `cr.write(adcal start_calibration, advregen enabled)` -/
  | adcalSet
  /-- busy-wait until ADCAL reads 0 (calibration done) -/
  | waitAdcal
  /-- `isr.write(eocal set)` — rc_w1 clear of the EOCAL flag -/
  | eocalClear
deriving DecidableEq, Repr

/-- `Adc::start_disable`: if a conversion is ongoing (ADSTART set), request a
stop (`cr.modify(adstp stop_conversion)`) and busy-wait for its
acknowledgment; then, if ADEN is set, request disable via
`cr.modify(addis set)`.  The second component is the event trace. -/
def start_disable (s : AdcState) : AdcState × List Event :=
  let p :=
    if s.cr.adstart then
      (hwStopDone { s with cr.adstp := true }, [Event.adstpSet, Event.waitAdstp])
    else
      (s, [])
  if p.1.cr.aden then
    ({ p.1 with cr.addis := true }, p.2 ++ [Event.addisSet])
  else
    p

/-- `Adc::setup_calibrate`: force disable and wait until fully disabled,
enable the internal voltage regulator, disable DMA. -/
def setup_calibrate (s : AdcState) : AdcState × List Event :=
  let p := start_disable s
  let s1 := waitDisabled p.1
  let s2 := crWrite s1 false false false false true false
  let s3 : AdcState := { s2 with dmaen := false }
  (s3, p.2 ++ [Event.waitDisabled, Event.advregenOn, Event.dmaDisable])

/-- `Adc::start_calibrate`: `cr.write(adcal start_calibration, advregen enabled)`. -/
def start_calibrate (s : AdcState) : AdcState :=
  crWrite s false false false false true true

/-- `Adc::calibrate(delay)`: `setup_calibrate`, delay `T_ADCVREG_SETUP_MICROS`
through the injected delay capability, `start_calibrate`, busy-wait until
hardware clears ADCAL, then clear EOCAL (rc_w1 write). -/
def calibrate (s : AdcState) : AdcState × List Event :=
  let p := setup_calibrate s
  let s1 := start_calibrate p.1
  let s2 := hwCalDone s1
  let s3 : AdcState := { s2 with isr.eocal := false }
  (s3, p.2 ++ [Event.delayUs T_ADCVREG_SETUP_MICROS, Event.adcalSet,
               Event.waitAdcal, Event.eocalClear])

/-! ## Measurement layer -/

/-- `Adc::temperature`: select the Vts channel, start a conversion, build the
exact ratio `Ratio::new(TS_CAL_TEMP_DELTA, ts_cal2.wrapping_sub(ts_cal1) as i16)`
(`none` models the unconditional division-by-zero panic of `Ratio::new` when
the wrapped anchor difference is 0), read CALFACT, read the sample with
saturating calibration correction, and return
`ret * (ts_data.wrapping_sub(ts_cal1) as i16) + TS_CAL1_TEMP`. -/
def temperature (s : AdcState) : Option (AdcState × ℚ) :=
  let s1 := cfg_ch_seq s (chMask chVts)
  let s2 := crWrite s1 false false true false false false
  let tsc1 := s2.tsCal1 % U16_MOD
  let tsc2 := s2.tsCal2 % U16_MOD
  let den : Int := toI16 (wrappingSub16 tsc2 tsc1)
  if den = 0 then none
  else
    let ret : ℚ := (TS_CAL_TEMP_DELTA : ℚ) / (den : ℚ)
    let calfact := s2.calfact % 128
    let p := data s2
    let ts_data := saturatingAdd16 p.2 calfact
    some (p.1, ret * ((toI16 (wrappingSub16 ts_data tsc1) : Int) : ℚ) + (TS_CAL1_TEMP : ℚ))

/-- The temperature value computed by `Adc::temperature` (dropping the
post-state). -/
def tempVal (s : AdcState) : Option ℚ :=
  (temperature s).map (fun p => p.2)

/-- `Adc::aio_temperature`: identical to `temperature` except the channel
latch and the sample read go through the async bridge. -/
def aio_temperature (s : AdcState) (m : Mailbox) (w : Nat) :
    Option (AdcState × Mailbox × ℚ) :=
  let p0 := aio_cfg_ch_seq s m w (chMask chVts)
  let s2 := crWrite p0.1 false false true false false false
  let tsc1 := s2.tsCal1 % U16_MOD
  let tsc2 := s2.tsCal2 % U16_MOD
  let den : Int := toI16 (wrappingSub16 tsc2 tsc1)
  if den = 0 then none
  else
    let ret : ℚ := (TS_CAL_TEMP_DELTA : ℚ) / (den : ℚ)
    let calfact := s2.calfact % 128
    let p := aio_data s2 p0.2 w
    let ts_data := saturatingAdd16 p.2.2 calfact
    some (p.1, p.2.1,
      ret * ((toI16 (wrappingSub16 ts_data tsc1) : Int) : ℚ) + (TS_CAL1_TEMP : ℚ))

/-- The temperature value computed by `Adc::aio_temperature`. -/
def aioTempVal (s : AdcState) (m : Mailbox) (w : Nat) : Option ℚ :=
  (aio_temperature s m w).map (fun p => p.2.2)

/-- `Adc::vbat`: select the Vbat channel, start a conversion, return the raw
sample (the driver applies no scaling; the physical bridge divider is x3). -/
def vbat (s : AdcState) : AdcState × Nat :=
  let s1 := cfg_ch_seq s (chMask chVbat)
  let s2 := crWrite s1 false false true false false false
  data s2

/-- The exact affine temperature transform described by the spec: slope
`(130 - 30) / (t2 - t1)` applied to `x - t1`, plus 30. -/
def tempTransform (t1 t2 : ℚ) (x : ℚ) : ℚ :=
  ((130 - 30) / (t2 - t1)) * (x - t1) + 30

/-! ## Helper lemmas -/

/-- The `u16` wrapping subtraction followed by the `as i16` cast computes the
true signed difference whenever that difference fits in `i16`. -/
lemma toI16_wrappingSub16 (x y : Nat) (hx : x < U16_MOD) (hy : y < U16_MOD)
    (h : (x : Int) - y ≤ 32767) (h' : (y : Int) - x ≤ 32768) :
    toI16 (wrappingSub16 x y) = (x : Int) - y := by
  unfold toI16 wrappingSub16 U16_MOD at *
  split <;> omega

/-- The wrapped-then-cast anchor difference is zero exactly when the two
values agree as `u16`. -/
lemma toI16_wrappingSub16_eq_zero_iff (x y : Nat) :
    toI16 (wrappingSub16 x y) = 0 ↔ x % U16_MOD = y % U16_MOD := by
  unfold toI16 wrappingSub16 U16_MOD
  split <;> omega

/-- `saturatingAdd16` ignores a pre-reduction of its first argument. -/
lemma saturatingAdd16_mod_left (a b : Nat) :
    saturatingAdd16 (a % U16_MOD) b = saturatingAdd16 a b := by
  unfold saturatingAdd16 U16_MOD
  omega

/-- The interrupt-status word is bounded by the `u32` width. -/
lemma isrBits_lt (i : Isr) : isrBits i < 2 ^ 32 := by
  unfold isrBits
  have h1 := Bool.toNat_le i.adrdy
  have h2 := Bool.toNat_le i.eosmp
  have h3 := Bool.toNat_le i.eoc
  have h4 := Bool.toNat_le i.eos
  have h5 := Bool.toNat_le i.ovr
  have h6 := Bool.toNat_le i.awd1
  have h7 := Bool.toNat_le i.awd2
  have h8 := Bool.toNat_le i.awd3
  have h9 := Bool.toNat_le i.eocal
  have h10 := Bool.toNat_le i.ccrdy
  omega

/-- A status word snapshotted with CCRDY set is never the empty sentinel. -/
lemma isrBits_ne_zero_of_ccrdy (i : Isr) (h : i.ccrdy = true) : isrBits i ≠ 0 := by
  unfold isrBits
  rw [h]
  simp only [Bool.toNat_true]
  omega

/-- A status word snapshotted with EOC set is never the empty sentinel. -/
lemma isrBits_ne_zero_of_eoc (i : Isr) (h : i.eoc = true) : isrBits i ≠ 0 := by
  unfold isrBits
  rw [h]
  simp only [Bool.toNat_true]
  omega

/-! ## Claims -/

/-- C1, counterexample: the claim says the 2 reserved channel bits (15 and
16) are always masked out of the written/latched configuration, so selecting
the mask `1 << 15` would have to latch a configuration with bit 15 clear
(that is, 0); instead `set_chsel` applies no reserved-bit masking and the
latched configuration keeps the reserved bit 15 set. -/
theorem adc_chsel_reserved_counterexample :
    (cfg_ch_seq {} (1 <<< 15)).chselr &&& (1 <<< 15) ≠ 0 ∧
      (cfg_ch_seq {} (1 <<< 15)).chselr ≠ 0 := by
  constructor
  · decide
  · decide

/-- C1, amended: selecting mask M and reading back the latched configuration
yields M reduced to the 19-bit CHSEL register field; the two reserved
channel bits are not masked out (`CH_MASK` is applied only in
`set_sample_times`, not in the channel sequencer). -/
theorem adc_chsel_roundtrip (s : AdcState) (M : Nat) :
    (cfg_ch_seq s M).chselr = M % 2 ^ 19 ∧ (cfg_ch_seq s M).isr.ccrdy = true := by
  constructor <;> rfl

/-- C10: `temperature` panics (models as `none`) exactly when the two factory
temperature anchors read back equal as `u16`; it is total under the
precondition `ts_cal2 ≠ ts_cal1`. -/
theorem adc_temperature_total_iff (s : AdcState) :
    temperature s = none ↔ s.tsCal1 % U16_MOD = s.tsCal2 % U16_MOD := by
  have h := toI16_wrappingSub16_eq_zero_iff (s.tsCal2 % U16_MOD) (s.tsCal1 % U16_MOD)
  unfold temperature cfg_ch_seq set_chsel hwChCfgDone crWrite
  dsimp only
  by_cases hden : toI16 (wrappingSub16 (s.tsCal2 % U16_MOD) (s.tsCal1 % U16_MOD)) = 0
  · rw [if_pos hden]
    simp only [true_iff]
    have h2 := h.mp hden
    unfold U16_MOD at *
    omega
  · rw [if_neg hden]
    simp only [Option.some_ne_none, false_iff]
    intro hc
    refine hden (h.mpr ?_)
    unfold U16_MOD at *
    omega

/-- C8: `vbat` returns the raw converter code for the battery channel
unmodified by the driver; in particular the x3 physical bridge-divider
scale-back is never applied to the returned value. -/
theorem adc_vbat_raw (s : AdcState) :
    (vbat s).2 = s.analog % U16_MOD ∧
      (s.analog % U16_MOD ≠ 0 → (vbat s).2 ≠ 3 * (s.analog % U16_MOD)) := by
  constructor
  · rfl
  · intro h
    show s.analog % U16_MOD ≠ 3 * (s.analog % U16_MOD)
    omega

/-- C8 witness: a concrete raw code of 1234 comes back exactly as 1234, not
3702. -/
theorem adc_vbat_raw_witness :
    (vbat ({ analog := 1234 } : AdcState)).2 = 1234 ∧
      (vbat ({ analog := 1234 } : AdcState)).2 ≠ 3 * 1234 := by
  have h := adc_vbat_raw ({ analog := 1234 } : AdcState)
  exact ⟨h.1, fun hc => (h.2 (by decide)) (by rw [hc]; decide)⟩

/-- C5: `enable` on a disabled converter clears ADRDY, requests enable and
polls ADRDY to completion; on an already-enabled converter it performs no
register operation at all (the state is untouched), so a second `enable`
leaves the converter enabled without disturbing anything. -/
theorem adc_enable_idempotent (s : AdcState) :
    (is_enabled s = true → enable s = s) ∧
    is_enabled (enable s) = true ∧
    enable (enable s) = enable s ∧
    (is_enabled s = false → (enable s).isr.adrdy = true ∧ (enable s).cr.aden = true) := by
  unfold is_enabled enable start_enable hwEnableDone crWrite
  by_cases h : s.cr.aden <;> simp [h]

/-- C5 witness: on a converter already enabled mid-conversion, `enable` is
the identity; from reset, `enable` ends with ADEN and ADRDY set. -/
theorem adc_enable_idempotent_witness :
    enable ({ cr := { aden := true, adstart := true } } : AdcState) =
      ({ cr := { aden := true, adstart := true } } : AdcState) ∧
    (enable ({} : AdcState)).isr.adrdy = true ∧
    (enable ({} : AdcState)).cr.aden = true := by
  refine ⟨(adc_enable_idempotent _).1 rfl, ?_, ?_⟩
  · exact ((adc_enable_idempotent ({} : AdcState)).2.2.2 rfl).1
  · exact ((adc_enable_idempotent ({} : AdcState)).2.2.2 rfl).2

/-- C6: invoking `start_disable` while a conversion is active (ADSTART set,
EOC not yet raised) first requests a conversion stop and busy-waits for its
acknowledgment, then (being enabled or not) requests disable only if ADEN is
set; once the disable completes, `is_disabled` is true and no stray
end-of-conversion flag remains set. -/
theorem adc_disable_mid_conversion (s : AdcState)
    (hstart : s.cr.adstart = true) (heoc : s.isr.eoc = false) :
    (start_disable s).2 =
      [Event.adstpSet, Event.waitAdstp] ++
        (if s.cr.aden then [Event.addisSet] else []) ∧
    (start_disable s).1.cr.adstp = false ∧
    (start_disable s).1.cr.adstart = false ∧
    is_disabled (waitDisabled (start_disable s).1) = true ∧
    (waitDisabled (start_disable s).1).isr.eoc = false := by
  unfold start_disable hwStopDone waitDisabled is_disabled
  by_cases h : s.cr.aden <;> by_cases h' : s.cr.addis <;>
    simp [hstart, heoc, h, h']

/-- C6 witness: a concrete enabled converter mid-conversion. -/
theorem adc_disable_mid_conversion_witness :
    (start_disable ({ cr := { aden := true, adstart := true } } : AdcState)).2 =
      [Event.adstpSet, Event.waitAdstp, Event.addisSet] ∧
    is_disabled
      (waitDisabled
        (start_disable ({ cr := { aden := true, adstart := true } } : AdcState)).1) = true ∧
    (waitDisabled
        (start_disable ({ cr := { aden := true, adstart := true } } : AdcState)).1).isr.eoc
      = false := by
  have h := adc_disable_mid_conversion
    ({ cr := { aden := true, adstart := true } } : AdcState) rfl rfl
  exact ⟨by rw [h.1]; rfl, h.2.2.2.1, h.2.2.2.2⟩

/-- C7: `calibrate` always performs, in this order: the (conditional) stop
request with its acknowledgment wait, the (conditional) disable request, the
busy-wait until fully disabled, enabling the internal voltage regulator,
disabling DMA, the injected 20 microsecond regulator warm-up delay, the
calibration request, the busy-wait until hardware clears ADCAL, and the
EOCAL flag clear — whatever the converter's initial state; afterwards the
regulator is enabled, DMA is disabled and the calibration request bit is
clear. -/
theorem adc_calibrate_sequence (s : AdcState) :
    (calibrate s).2 =
      (if s.cr.adstart then [Event.adstpSet, Event.waitAdstp] else []) ++
        (if s.cr.aden then [Event.addisSet] else []) ++
        [Event.waitDisabled, Event.advregenOn, Event.dmaDisable,
          Event.delayUs 20, Event.adcalSet, Event.waitAdcal, Event.eocalClear] ∧
    T_ADCVREG_SETUP_MICROS = 20 ∧
    (calibrate s).1.cr.advregen = true ∧
    (calibrate s).1.dmaen = false ∧
    (calibrate s).1.cr.adcal = false ∧
    (calibrate s).1.isr.eocal = false := by
  unfold calibrate setup_calibrate start_disable start_calibrate hwStopDone
    waitDisabled hwCalDone crWrite T_ADCVREG_SETUP_MICROS
  by_cases h : s.cr.adstart <;> by_cases h' : s.cr.aden <;>
    by_cases h'' : s.cr.addis <;> simp [h, h', h'']

/-- With the illustrative factory anchors 922/1723, `temperature` returns
exactly `100/801 * ((ts_data.wrapping_sub(922)) as i16) + 30` where
`ts_data` is the saturating-corrected sample. -/
lemma tempVal_anchor (s : AdcState) (h1 : s.tsCal1 = 922) (h2 : s.tsCal2 = 1723) :
    tempVal s = some ((100 : ℚ) / 801 *
      ((toI16 (wrappingSub16 (saturatingAdd16 s.analog (s.calfact % 128)) 922) : Int) : ℚ)
        + 30) := by
  have hden : toI16 (wrappingSub16 (1723 % U16_MOD) (922 % U16_MOD)) = 801 := by decide
  have hm : (922 : Nat) % U16_MOD = 922 := by decide
  unfold tempVal temperature cfg_ch_seq set_chsel hwChCfgDone crWrite data hwConvDone
  dsimp only
  rw [h1, h2, hden, if_neg (by norm_num : ¬(801 : Int) = 0)]
  rw [hm, saturatingAdd16_mod_left]
  unfold TS_CAL_TEMP_DELTA TS_CAL1_TEMP TS_CAL2_TEMP
  norm_num

/-- C2: with factory anchors 922 (30 °C) and 1723 (130 °C), the temperature
transform yields the exact rational
`(130 - 30)/(1723 - 922) * (corrected - 922) + 30` for every corrected
sample whose distance from the 30 °C anchor fits in `i16`; in particular a
corrected sample of 922 yields exactly 30 and one of 1723 yields exactly
130, and the exact affine transform maps the (half-integer) midpoint of the
anchors to exactly 80. -/
theorem adc_temperature_linearity (s : AdcState)
    (h1 : s.tsCal1 = 922) (h2 : s.tsCal2 = 1723) :
    (saturatingAdd16 s.analog (s.calfact % 128) ≤ 33689 →
      tempVal s =
        some (tempTransform 922 1723 (saturatingAdd16 s.analog (s.calfact % 128)))) ∧
    (saturatingAdd16 s.analog (s.calfact % 128) = 922 → tempVal s = some 30) ∧
    (saturatingAdd16 s.analog (s.calfact % 128) = 1723 → tempVal s = some 130) ∧
    tempTransform 922 1723 ((922 + 1723) / 2) = 80 := by
  have key := tempVal_anchor s h1 h2
  have hclt : saturatingAdd16 s.analog (s.calfact % 128) < U16_MOD := by
    unfold saturatingAdd16 U16_MOD
    omega
  refine ⟨?_, ?_, ?_, ?_⟩
  · intro hle
    rw [key, toI16_wrappingSub16 _ 922 hclt (by decide)
      (by push_cast; omega) (by push_cast; omega)]
    unfold tempTransform
    push_cast
    norm_num
  · intro he
    rw [key, he]
    norm_num [show toI16 (wrappingSub16 922 922) = 0 from by decide]
  · intro he
    rw [key, he]
    norm_num [show toI16 (wrappingSub16 1723 922) = 801 from by decide]
  · unfold tempTransform
    norm_num

/-- C2 witness: concrete corrected samples 922, 1723 and 1000. -/
theorem adc_temperature_linearity_witness :
    tempVal ({ analog := 922 } : AdcState) = some 30 ∧
    tempVal ({ analog := 1723 } : AdcState) = some 130 ∧
    tempVal ({ analog := 1000 } : AdcState) = some (tempTransform 922 1723 1000) := by
  refine ⟨(adc_temperature_linearity ({ analog := 922 } : AdcState) rfl rfl).2.1
      (by decide),
    (adc_temperature_linearity ({ analog := 1723 } : AdcState) rfl rfl).2.2.1
      (by decide), ?_⟩
  have h := (adc_temperature_linearity ({ analog := 1000 } : AdcState) rfl rfl).1
    (by decide)
  rw [show saturatingAdd16 1000 (0 % 128) = 1000 from by decide] at h
  exact h.trans (by norm_num)

/-- C3: the corrected sample is the raw sample saturating-added with the
7-bit calibration factor — clamped at 65535, never wrapping — and the
subtraction from the 30 °C anchor is wrapping at the `u16` width: a
corrected sample numerically below the anchor yields the wrapped difference
`2^16 - (anchor - corrected)`, reinterpreted as the true negative `i16`
difference, and the computation stays defined (no fault). -/
theorem adc_temperature_arith_modes (s : AdcState)
    (h1 : s.tsCal1 = 922) (h2 : s.tsCal2 = 1723) :
    (s.analog % U16_MOD + s.calfact % 128 ≥ 65535 →
      saturatingAdd16 s.analog (s.calfact % 128) = 65535 ∧
      tempVal s = some ((100 : ℚ) / 801 * ((65535 : ℚ) - 922 - 65536) + 30)) ∧
    (saturatingAdd16 s.analog (s.calfact % 128) < 922 →
      wrappingSub16 (saturatingAdd16 s.analog (s.calfact % 128)) 922 =
        U16_MOD - (922 - saturatingAdd16 s.analog (s.calfact % 128)) ∧
      (temperature s).isSome = true ∧
      tempVal s =
        some (tempTransform 922 1723 (saturatingAdd16 s.analog (s.calfact % 128)))) := by
  have key := tempVal_anchor s h1 h2
  have hclt : saturatingAdd16 s.analog (s.calfact % 128) < U16_MOD := by
    unfold saturatingAdd16 U16_MOD
    omega
  constructor
  · intro hge
    have hsat : saturatingAdd16 s.analog (s.calfact % 128) = 65535 := by
      unfold saturatingAdd16 U16_MOD at *
      omega
    rw [hsat] at key
    refine ⟨hsat, key.trans ?_⟩
    norm_num [show toI16 (wrappingSub16 65535 922) = -923 from by decide]
  · intro hlt
    refine ⟨by unfold wrappingSub16 U16_MOD at *; omega, ?_, ?_⟩
    · unfold tempVal at key
      rcases Option.map_eq_some'.mp key with ⟨p, hp, -⟩
      rw [hp]
      rfl
    · rw [key, toI16_wrappingSub16 _ 922 hclt (by decide)
        (by push_cast; omega) (by push_cast; omega)]
      unfold tempTransform
      push_cast
      norm_num

/-- C3 witness: an overflowing pair clamps to 65535, and the concrete
corrected sample 100 (below the anchor) produces the exact negative-slope
value without a fault. -/
theorem adc_temperature_arith_modes_witness :
    saturatingAdd16 65530 (10 % 128) = 65535 ∧
    tempVal ({ analog := 65530, calfact := 10 } : AdcState) =
      some ((100 : ℚ) / 801 * ((65535 : ℚ) - 922 - 65536) + 30) ∧
    (temperature ({ analog := 100 } : AdcState)).isSome = true ∧
    tempVal ({ analog := 100 } : AdcState) = some (tempTransform 922 1723 100) := by
  have hsat := (adc_temperature_arith_modes
    ({ analog := 65530, calfact := 10 } : AdcState) rfl rfl).1 (by decide)
  have hlow := (adc_temperature_arith_modes
    ({ analog := 100 } : AdcState) rfl rfl).2 (by decide)
  refine ⟨hsat.1, hsat.2, hlow.2.1, ?_⟩
  have h := hlow.2.2
  rw [show saturatingAdd16 100 (0 % 128) = 100 from by decide] at h
  exact h.trans (by norm_num)

/-- `poll` on an empty result slot: register the waiter, stay pending. -/
lemma poll_of_eq (w : Nat) (m : Mailbox) (h : m.result = 0) :
    poll w m = ({ m with waker := some w }, PollRes.pending) := by
  simp [poll, h]

/-- `poll` on a non-empty result slot: deliver the stored value and leave
the slot at the empty sentinel with the waker taken. -/
lemma poll_of_ne (w : Nat) (m : Mailbox) (h : m.result ≠ 0) :
    poll w m = ({ result := 0, waker := none }, PollRes.ready m.result) := by
  simp [poll, h]

/-- C4: each `poll` first registers the current waiter (replacing any
previous one) and then reads-and-clears the result slot: an empty slot (the
sentinel 0) gives `Pending` with the waiter registered; a non-empty slot
gives `Ready` with exactly the stored value and leaves the slot at 0.  A
result posted by the interrupt handler before any waiter was registered is
delivered on the very next poll, and two posts without an intervening poll
deliver the later value (last-write-wins) while the second post raises the
debug-only misuse flag — no crash, no deadlock (`poll` and the handler are
total). -/
theorem adc_mailbox_poll (m : Mailbox) (w : Nat) (v v2 : Nat) :
    (m.result = 0 → poll w m = ({ m with waker := some w }, PollRes.pending)) ∧
    (m.result ≠ 0 →
      poll w m = ({ result := 0, waker := none }, PollRes.ready m.result)) ∧
    (v ≠ 0 → v < 2 ^ 32 →
      poll w (irqPost m v).1 = ({ result := 0, waker := none }, PollRes.ready v)) ∧
    (v2 ≠ 0 → v2 < 2 ^ 32 →
      poll w (irqPost (irqPost m v).1 v2).1 =
        ({ result := 0, waker := none }, PollRes.ready v2) ∧
      (v ≠ 0 → (irqPost (irqPost m v).1 v2).2.1 = true)) := by
  refine ⟨poll_of_eq w m, poll_of_ne w m, ?_, ?_⟩
  · intro h _
    exact poll_of_ne w { result := v, waker := none } h
  · intro h _
    refine ⟨poll_of_ne w { result := v2, waker := none } h, ?_⟩
    intro hv
    simp [irqPost, decide_eq_true_iff]
    exact hv

/-- C4 witness: concrete posts of 13 then 99 to an initially empty mailbox. -/
theorem adc_mailbox_poll_witness :
    poll 7 ({ } : Mailbox) = ({ result := 0, waker := some 7 }, PollRes.pending) ∧
    poll 7 (irqPost ({ } : Mailbox) 13).1 =
      ({ result := 0, waker := none }, PollRes.ready 13) ∧
    poll 7 (irqPost (irqPost ({ } : Mailbox) 13).1 99).1 =
      ({ result := 0, waker := none }, PollRes.ready 99) ∧
    (irqPost (irqPost ({ } : Mailbox) 13).1 99).2.1 = true := by
  have h := adc_mailbox_poll ({ } : Mailbox) 7 13 99
  have h4 := h.2.2.2 (by decide) (by decide)
  exact ⟨h.1 rfl, h.2.2.1 (by decide) (by decide), h4.1, h4.2 (by decide)⟩

/-- The async channel-selection handshake from a clean mailbox: CHSEL is
written, the handler drains the ISR flags and masks the IER, and the
mailbox returns to empty. -/
lemma aio_cfg_ch_seq_eq (s : AdcState) (m : Mailbox) (w ch : Nat)
    (hm : m.result = 0) :
    aio_cfg_ch_seq s m w ch =
      ({ set_chsel s ch with isr := {}, ier := {} }, ({ } : Mailbox)) := by
  unfold aio_cfg_ch_seq
  rw [poll_of_eq w m hm]
  dsimp only
  unfold irqADC irqPost
  dsimp only
  rw [poll_of_ne w _ (isrBits_ne_zero_of_ccrdy _ rfl)]
  rfl

/-- The async sample read from a clean mailbox: the sample is the raw
converter code, the handler drains the ISR flags and masks the IER, and the
mailbox returns to empty. -/
lemma aio_data_eq (s : AdcState) (m : Mailbox) (w : Nat) (hm : m.result = 0) :
    aio_data s m w =
      ({ hwConvDone { s with ier := { eocie := true } } with isr := {}, ier := {} },
        ({ } : Mailbox), s.analog % U16_MOD) := by
  unfold aio_data
  rw [poll_of_eq w m hm]
  dsimp only
  unfold irqADC irqPost hwConvDone
  dsimp only
  rw [poll_of_ne w _ (isrBits_ne_zero_of_eoc _ rfl)]

/-- C9: from an empty mailbox, the raw sample produced by the blocking read
path equals the sample produced by the asynchronous read path, and the
blocking and async temperature computations yield the same exact rational
value (the same calibration transform applied to the same sample). -/
theorem adc_blocking_async_equiv (s : AdcState) (m : Mailbox) (w : Nat)
    (hm : m.result = 0) :
    (aio_data s m w).2.2 = (data s).2 ∧
    aioTempVal s m w = tempVal s := by
  constructor
  · rw [aio_data_eq s m w hm]
    rfl
  · unfold aioTempVal aio_temperature tempVal temperature
    rw [aio_cfg_ch_seq_eq s m w _ hm]
    dsimp only
    rw [aio_data_eq _ _ w rfl]
    unfold cfg_ch_seq set_chsel hwChCfgDone crWrite data hwConvDone
    dsimp only
    by_cases hden :
      toI16 (wrappingSub16 (s.tsCal2 % U16_MOD) (s.tsCal1 % U16_MOD)) = 0
    · rw [if_pos hden, if_pos hden]
      rfl
    · rw [if_neg hden, if_neg hden]
      simp

/-- C9 witness: a concrete state with raw code 777 and an empty mailbox. -/
theorem adc_blocking_async_equiv_witness :
    (aio_data ({ analog := 777 } : AdcState) ({ } : Mailbox) 3).2.2 =
      (data ({ analog := 777 } : AdcState)).2 ∧
    aioTempVal ({ analog := 777 } : AdcState) ({ } : Mailbox) 3 =
      tempVal ({ analog := 777 } : AdcState) := by
  exact adc_blocking_async_equiv ({ analog := 777 } : AdcState) ({ } : Mailbox) 3 rfl

end StmAdc
